import Mathlib

/-!
Verification development for the sriVidyaBharathi client-side persistence
layer (services/db.ts).  The data layer keeps user accounts, per-user
completion sets and progress maps in localStorage (the Scalar Store) and the
video catalog in IndexedDB (the Record Store).  We shallowly embed the
relevant operations as pure Lean functions:

* user-table operations (authenticateUser, registerStudent,
  updateUserProfile, changePassword, deleteUser) are modelled as functions on
  the typed user table they read from and write back to localStorage;
* video Record Store operations are modelled on an explicit store state, with
  IndexedDB's all-or-nothing transaction commit modelled by a list of queued
  operations and a commit flag;
* the raw Scalar Store (JSON (de)serialization, corrupted values) is modelled
  by a small JSON value type plus a string-keyed map whose entries are either
  a parsed value or an unparseable blob.
-/

namespace SVB

/-- The fixed subject enumeration from types.ts. -/
inductive Subject where
  | mathematics | science | history | english | geography | physics
  | chemistry | biology | computerScience | economics | art
deriving DecidableEq

/-- Class levels '8' | '9' | '10' from types.ts. -/
inductive VClass where
  | c8 | c9 | c10
deriving DecidableEq

/-- Video status 'published' | 'draft'. -/
inductive VStatus where
  | published | draft
deriving DecidableEq

/-- User type 'student' | 'admin'. -/
inductive UserType where
  | student | admin
deriving DecidableEq

/-- User status 'active' | 'disabled'. -/
inductive UserStatus where
  | active | disabled
deriving DecidableEq

/-- The Video record of types.ts.  `uploadedAt` is an ISO date string in the
source; since getVideos compares dates only through
`new Date(v.uploadedAt).getTime()`, we model the field by that numeric
timestamp. -/
structure Video where
  id : String
  title : String
  description : String
  subject : Subject
  «class» : VClass
  duration : String
  views : Nat
  completed : Option Bool
  status : VStatus
  thumbnailUrl : String
  videoUrls : List (String × String)
  tags : Option (List String)
  uploadedAt : Nat
deriving DecidableEq

/-- The User record of types.ts (`password?` is optional). -/
structure User where
  id : String
  name : String
  email : String
  password : Option String
  type : UserType
  «class» : Option VClass
  status : UserStatus
deriving DecidableEq

/-! ## User management (localStorage user table)

Each operation reads the user table with getUsers and writes it back with
saveToStorage; we model them as functions taking and returning the table. -/

/-- JS String.prototype.toLowerCase, as an executable character map. -/
def jsToLower (s : String) : String := String.mk (s.data.map Char.toLower)

/-- authenticateUser: finds the first user whose email matches
case-insensitively, then compares the password; strips the password from a
successful result. -/
def authenticateUser (users : List User) (email passwordSent : String) :
    Option User :=
  match users.find? (fun u => jsToLower u.email == jsToLower email) with
  | some u =>
      if u.password == some passwordSent then
        some { u with password := none }
      else none
  | none => none

/-- The registration payload, Omit<User, 'id' | 'type' | 'status'>. -/
structure RegisterData where
  name : String
  email : String
  password : Option String
  «class» : Option VClass
deriving DecidableEq

/-- registerStudent: rejects (returning null) when some user already has the
email case-insensitively, else appends a new active student whose id is
derived from Date.now() (modelled by the `now` argument) and returns it with
the password stripped; the stored record keeps the password. -/
def registerStudent (users : List User) (d : RegisterData) (now : Nat) :
    Option User × List User :=
  if users.any (fun u => jsToLower u.email == jsToLower d.email) then
    (none, users)
  else
    let newUser : User :=
      { id := "user_" ++ toString now, name := d.name, email := d.email,
        password := d.password, type := UserType.student,
        «class» := d.«class», status := UserStatus.active }
    (some { newUser with password := none }, users ++ [newUser])

/-- Partial<User>: every field optionally present. -/
structure UserPatch where
  id : Option String := none
  name : Option String := none
  email : Option String := none
  password : Option String := none
  type : Option UserType := none
  «class» : Option VClass := none
  status : Option UserStatus := none
deriving DecidableEq

/-- JS object spread { ...u, ...p }: fields present in the patch override. -/
def applyUserPatch (u : User) (p : UserPatch) : User :=
  { id := p.id.getD u.id
    name := p.name.getD u.name
    email := p.email.getD u.email
    password := match p.password with
      | some s => some s
      | none => u.password
    type := p.type.getD u.type
    «class» := match p.«class» with
      | some c => some c
      | none => u.«class»
    status := p.status.getD u.status }

/-- updateUserProfile: replaces the first user with the given id (findIndex
semantics) by the patched record and returns it password-stripped; returns
null and leaves the table untouched when no user has the id. -/
def updateUserProfile (users : List User) (userId : String) (p : UserPatch) :
    Option User × List User :=
  match users with
  | [] => (none, [])
  | u :: rest =>
      if u.id == userId then
        let u' := applyUserPatch u p
        (some { u' with password := none }, u' :: rest)
      else
        let r := updateUserProfile rest userId p
        (r.1, u :: r.2)

/-- changePassword: finds the first user with the id; if present and the old
password matches, stores the new password and reports true, otherwise reports
false and leaves the table unchanged. -/
def changePassword (users : List User) (userId oldPass newPass : String) :
    Bool × List User :=
  match users with
  | [] => (false, [])
  | u :: rest =>
      if u.id == userId then
        if u.password == some oldPass then
          (true, { u with password := some newPass } :: rest)
        else (false, u :: rest)
      else
        let r := changePassword rest userId oldPass newPass
        (r.1, u :: r.2)

/-- deleteUser: filters the user with the given id out of the table. -/
def deleteUser (users : List User) (userId : String) : List User :=
  users.filter (fun u => u.id != userId)

/-- updateVideoCompletion, acting on one user's (already well-shaped)
completion list: marking complete appends the id only when absent; marking
incomplete filters out every occurrence.  (The corrupted-shape reset that
precedes this in the source is modelled separately at the raw Scalar Store
level.) -/
def updateVideoCompletion (completedVideoIds : List String)
    (videoId : String) (isCompleted : Bool) : List String :=
  if isCompleted then
    if completedVideoIds.contains videoId then completedVideoIds
    else completedVideoIds ++ [videoId]
  else
    completedVideoIds.filter (fun id => id != videoId)

/-! ## Video Record Store (IndexedDB collection keyed by id)

The store is the list of records in iteration order.  IndexedDB `put` is an
upsert by key; `delete` is a no-op on a missing key.  A readwrite transaction
commits all queued operations atomically: on failure none of them become
visible.  We model a transaction by the list of queued operations together
with a commit flag. -/

/-- IndexedDB put: replace the record with the same id, or append. -/
def putVideo (store : List Video) (v : Video) : List Video :=
  if store.any (fun w => w.id == v.id) then
    store.map (fun w => if w.id == v.id then v else w)
  else store ++ [v]

/-- An operation queued on a readwrite transaction of the videos store. -/
inductive TxnOp where
  | putOp (v : Video)
  | deleteOp (id : String)
deriving DecidableEq

/-- Effect of one queued operation on the store. -/
def applyTxnOp (store : List Video) : TxnOp → List Video
  | TxnOp.putOp v => putVideo store v
  | TxnOp.deleteOp id => store.filter (fun w => w.id != id)

/-- Committing a transaction applies its queued operations in order. -/
def commitOps (store : List Video) (ops : List TxnOp) : List Video :=
  ops.foldl applyTxnOp store

/-- Atomic commit semantics of one IndexedDB transaction: on success all
queued operations become visible together, on failure none do. -/
def runTxn (store : List Video) (ops : List TxnOp) (ok : Bool) :
    List Video :=
  if ok then commitOps store ops else store

/-- JS `[...new Set(l)]`: removes duplicates keeping first occurrences. -/
def firstDedupAux : List String → List String → List String
  | [], _ => []
  | a :: l, seen =>
      if seen.contains a then firstDedupAux l seen
      else a :: firstDedupAux l (a :: seen)

/-- First-occurrence deduplication, as performed by a JS Set. -/
def firstDedup (l : List String) : List String := firstDedupAux l []

/-- The puts queued by a batch that looks each id up in the pre-batch
snapshot and, when found, puts back the record transformed by `g`; missing
ids queue nothing.  (The source mutates its snapshot records in place, which
for the idempotent per-record transforms used below is observationally the
same as transforming the snapshot record.) -/
def putOpsFor (store : List Video) (ids : List String)
    (g : Video → Video) : List TxnOp :=
  ids.filterMap (fun id =>
    (store.find? (fun v => v.id == id)).map (fun v => TxnOp.putOp (g v)))

/-- updateMultipleVideosStatus: one readwrite transaction; for each id found
in the snapshot, put the record with its status replaced. -/
def updateMultipleVideosStatus (store : List Video) (videoIds : List String)
    (status : VStatus) (ok : Bool) : List Video :=
  runTxn store (putOpsFor store videoIds (fun v => { v with status := status })) ok

/-- The tag merge of addTagsToMultipleVideos:
[...new Set([...(video.tags || []), ...tagsToAdd])]. -/
def mergeTags (existing : Option (List String)) (tagsToAdd : List String) :
    List String :=
  firstDedup (existing.getD [] ++ tagsToAdd)

/-- addTagsToMultipleVideos: one readwrite transaction; for each id found in
the snapshot, put the record with the new tags merged in (deduplicated,
preserving prior tags). -/
def addTagsToMultipleVideos (store : List Video) (videoIds : List String)
    (tagsToAdd : List String) (ok : Bool) : List Video :=
  runTxn store
    (putOpsFor store videoIds
      (fun v => { v with tags := some (mergeTags v.tags tagsToAdd) })) ok

/-- deleteMultipleVideos: one readwrite transaction queueing a delete per id
(IndexedDB delete succeeds on missing keys). -/
def deleteMultipleVideos (store : List Video) (videoIds : List String)
    (ok : Bool) : List Video :=
  runTxn store (videoIds.map TxnOp.deleteOp) ok

/-! ## The database state and facade operations -/

/-- Raw legacy content under the localStorage key 'eduportal_videos': either
a string JSON.parse rejects, a parseable value that is not an array, or an
array of videos. -/
inductive LegacyVal where
  | corrupt
  | nonList
  | list (vs : List Video)
deriving DecidableEq

/-- State of the persistence layer: whether the shared IndexedDB handle is
open, whether localStorage holds the 'eduportal_users' key, the legacy
'eduportal_videos' localStorage entry, and the IndexedDB videos store. -/
structure DBState where
  dbOpen : Bool
  usersKey : Bool
  legacyVideos : Option LegacyVal
  videos : List Video
deriving DecidableEq

/-- openDB: opens the shared handle on first use and reuses it afterwards;
there is no initialization check. -/
def openDB (s : DBState) : DBState := { s with dbOpen := true }

/-- Errors the spec's error taxonomy names for data operations.  (The code
under src/ never constructs `uninitialized` or `notFound`; they are included
so the spec's claims about them can be stated.) -/
inductive DBError where
  | uninitialized
  | notFound
  | duplicateKey
deriving DecidableEq

/-- getRawVideos: opens the DB and returns the store contents in iteration
order. -/
def getRawVideos (s : DBState) : List Video × DBState :=
  let s' := openDB s
  (s'.videos, s')

/-- The sort comparator of getVideos, descending by upload timestamp. -/
def videoLe (a b : Video) : Bool := b.uploadedAt ≤ a.uploadedAt

/-- getVideos (without a userId): returns the catalog sorted by uploadedAt
descending; JS Array.prototype.sort is stable, modelled by mergeSort.  (With
a userId the source additionally maps a derived `completed` flag over the
sorted list, which does not reorder it; the completions read it performs is
modelled at the raw Scalar Store level below.) -/
def getVideos (s : DBState) : Except DBError (List Video × DBState) :=
  let r := getRawVideos s
  Except.ok (r.1.mergeSort videoLe, r.2)

/-- The upload payload, Omit<Video, 'id'>. -/
structure VideoData where
  title : String
  description : String
  subject : Subject
  «class» : VClass
  duration : String
  views : Nat
  completed : Option Bool
  status : VStatus
  thumbnailUrl : String
  videoUrls : List (String × String)
  tags : Option (List String)
  uploadedAt : Nat
deriving DecidableEq

/-- addVideo: generates an id from Date.now() (the `now` argument) and adds
the record; IndexedDB add rejects a duplicate key. -/
def addVideo (s : DBState) (d : VideoData) (now : Nat) :
    Except DBError (Video × DBState) :=
  let s' := openDB s
  let newVideo : Video :=
    { id := "video_" ++ toString now, title := d.title,
      description := d.description, subject := d.subject,
      «class» := d.«class», duration := d.duration, views := d.views,
      completed := d.completed, status := d.status,
      thumbnailUrl := d.thumbnailUrl, videoUrls := d.videoUrls,
      tags := d.tags, uploadedAt := d.uploadedAt }
  if s'.videos.any (fun w => w.id == newVideo.id) then
    Except.error DBError.duplicateKey
  else
    Except.ok (newVideo, { s' with videos := s'.videos ++ [newVideo] })

/-- Partial<Video>: every field optionally present. -/
structure VideoPatch where
  id : Option String := none
  title : Option String := none
  description : Option String := none
  subject : Option Subject := none
  «class» : Option VClass := none
  duration : Option String := none
  views : Option Nat := none
  completed : Option Bool := none
  status : Option VStatus := none
  thumbnailUrl : Option String := none
  videoUrls : Option (List (String × String)) := none
  tags : Option (List String) := none
  uploadedAt : Option Nat := none
deriving DecidableEq

/-- JS object spread { ...video, ...patch }. -/
def applyVideoPatch (v : Video) (p : VideoPatch) : Video :=
  { id := p.id.getD v.id
    title := p.title.getD v.title
    description := p.description.getD v.description
    subject := p.subject.getD v.subject
    «class» := p.«class».getD v.«class»
    duration := p.duration.getD v.duration
    views := p.views.getD v.views
    completed := match p.completed with
      | some b => some b
      | none => v.completed
    status := p.status.getD v.status
    thumbnailUrl := p.thumbnailUrl.getD v.thumbnailUrl
    videoUrls := p.videoUrls.getD v.videoUrls
    tags := match p.tags with
      | some t => some t
      | none => v.tags
    uploadedAt := p.uploadedAt.getD v.uploadedAt }

/-- updateVideo: gets the record; when absent it resolves null and queues no
write, otherwise it puts the patched record back and resolves it. -/
def updateVideo (s : DBState) (videoId : String) (p : VideoPatch) :
    Except DBError (Option Video × DBState) :=
  let s' := openDB s
  match s'.videos.find? (fun v => v.id == videoId) with
  | none => Except.ok (none, s')
  | some v =>
      let v' := applyVideoPatch v p
      Except.ok (some v', { s' with videos := putVideo s'.videos v' })

/-- deleteVideo: deletes the record with the id (no-op when absent). -/
def deleteVideo (s : DBState) (videoId : String) :
    Except DBError (Unit × DBState) :=
  let s' := openDB s
  Except.ok ((), { s' with videos := s'.videos.filter (fun w => w.id != videoId) })

/-! ## Startup initialization and migration -/

/-- Modelled from the spec: the fixed seed user set (services/initialData.ts
is imported by the data layer but is not under src/).  Its contents are
abstracted to a fixed admin and a fixed student with distinct emails. -/
def initialUsers : List User :=
  [ { id := "user_admin", name := "Admin", email := "admin@svb.edu",
      password := some "admin123", type := UserType.admin, «class» := none,
      status := UserStatus.active },
    { id := "user_s1", name := "Student One", email := "student1@svb.edu",
      password := some "pass123", type := UserType.student,
      «class» := some VClass.c8, status := UserStatus.active } ]

/-- Modelled from the spec: the fixed initial video dataset
(services/initialData.ts is not under src/).  Its contents are abstracted to
a fixed nonempty list with distinct ids. -/
def initialVideos : List Video :=
  [ { id := "video_1", title := "Algebra Basics", description := "Intro",
      subject := Subject.mathematics, «class» := VClass.c8,
      duration := "24:15", views := 100, completed := none,
      status := VStatus.published, thumbnailUrl := "t1",
      videoUrls := [("720p", "u1")], tags := none, uploadedAt := 200 },
    { id := "video_2", title := "Cells", description := "Intro",
      subject := Subject.biology, «class» := VClass.c9,
      duration := "18:00", views := 50, completed := none,
      status := VStatus.draft, thumbnailUrl := "t2",
      videoUrls := [("720p", "u2")], tags := none, uploadedAt := 100 } ]

/-- IndexedDB add of each seed video in one transaction: a duplicate-key add
errors and, unhandled, aborts the whole transaction. -/
def addAll (store : List Video) (vs : List Video) : Option (List Video) :=
  vs.foldlM
    (fun st v =>
      if st.any (fun w => w.id == v.id) then none else some (st ++ [v]))
    store

/-- Seeding the store from the fixed initial dataset. -/
def seedInitialVideos (store : List Video) : List Video :=
  match addAll store initialVideos with
  | some st => st
  | none => store

/-- migrateLocalStorageToIndexedDB: if the legacy localStorage key holds a
nonempty video array, put every record into the store and remove the key; a
parseable non-array (or empty array) value is removed without migration; a
value JSON.parse rejects throws and is swallowed, leaving the key in place. -/
def migrateLocalStorageToIndexedDB (s : DBState) : DBState :=
  match s.legacyVideos with
  | none => s
  | some LegacyVal.corrupt => s
  | some LegacyVal.nonList => { s with legacyVideos := none }
  | some (LegacyVal.list vs) =>
      if vs.length > 0 then
        let s' := openDB s
        { s' with videos := vs.foldl putVideo s'.videos,
                  legacyVideos := none }
      else { s with legacyVideos := none }

/-- initDB: opens the DB, seeds the users key when absent, and when the
videos store is empty first attempts the legacy migration and then, if the
store is still empty, seeds it from the fixed initial dataset; when the
store is nonempty it still runs the legacy sweep. -/
def initDB (s : DBState) : DBState :=
  let s1 := openDB s
  let s2 := if s1.usersKey then s1 else { s1 with usersKey := true }
  if s2.videos.length = 0 then
    let s3 := migrateLocalStorageToIndexedDB s2
    if s3.videos.length = 0 then
      { s3 with videos := seedInitialVideos s3.videos }
    else s3
  else
    migrateLocalStorageToIndexedDB s2

/-! ## Raw Scalar Store (localStorage with JSON (de)serialization)

To settle the self-healing claim we model the persisted layer itself: a
string-keyed map whose entries are either a value JSON.parse accepts or an
unparseable blob.  getFromStorage returns the caller-supplied default when
the key is absent or JSON.parse throws; the per-operation shape checks then
decide whether to reset-and-persist. -/

/-- A parsed JSON value (enough structure for the shape checks used by the
data layer: Array.isArray and typeof-object tests). -/
inductive JVal where
  | jnull
  | jbool (b : Bool)
  | jnum (n : Int)
  | jstr (s : String)
  | jarr (xs : List JVal)
  | jobj (fields : List (String × JVal))

/-- A persisted localStorage entry: the stored string either parses to a
JSON value or JSON.parse rejects it. -/
inductive LSItem where
  | corrupt
  | parsed (v : JVal)

/-- localStorage as a string-keyed map. -/
def LocalStorage : Type := String → Option LSItem

/-- localStorage.setItem with a serializable value. -/
def lsSet (ls : LocalStorage) (key : String) (x : LSItem) : LocalStorage :=
  fun k => if k == key then some x else ls k

/-- getFromStorage: JSON.parse the stored string, returning the
caller-supplied default when the key is absent or parsing throws.  The
caught parse error is only logged; nothing is written back. -/
def getFromStorage (ls : LocalStorage) (key : String) (defaultValue : JVal) :
    JVal :=
  match ls key with
  | none => defaultValue
  | some LSItem.corrupt => defaultValue
  | some (LSItem.parsed v) => v

/-- saveToStorage: serialize and persist (the success path; quota failures
are out of scope of the self-healing claim). -/
def saveToStorage (ls : LocalStorage) (key : String) (v : JVal) :
    LocalStorage :=
  lsSet ls key (LSItem.parsed v)

/-- Array.isArray. -/
def isArray : JVal → Bool
  | JVal.jarr _ => true
  | _ => false

/-- The shape test of getProgressForUser:
typeof p === 'object' && p !== null && !Array.isArray(p). -/
def isPlainObject : JVal → Bool
  | JVal.jobj _ => true
  | _ => false

/-- The localStorage keys of the Scalar Store. -/
def usersKeyName : String := "eduportal_users"

/-- Completion-set key for a user. -/
def completionsKeyName (userId : String) : String :=
  "eduportal_completions_" ++ userId

/-- Progress-map key for a user. -/
def progressKeyName (userId : String) : String :=
  "eduportal_progress_" ++ userId

/-- The JSON encoding of a seed user, as serialized by saveToStorage. -/
def userToJ (u : User) : JVal :=
  JVal.jobj
    ([("id", JVal.jstr u.id), ("name", JVal.jstr u.name),
      ("email", JVal.jstr u.email)] ++
     (match u.password with
      | some p => [("password", JVal.jstr p)]
      | none => []))

/-- The JSON encoding of the fixed seed user set. -/
def initialUsersJ : JVal := JVal.jarr (initialUsers.map userToJ)

/-- getUsers at the persisted layer: reads with default [], and when the
result is not an array resets the key to initialUsers, persisting them. -/
def getUsersRaw (ls : LocalStorage) : JVal × LocalStorage :=
  let users := getFromStorage ls usersKeyName (JVal.jarr [])
  if isArray users then (users, ls)
  else (initialUsersJ, saveToStorage ls usersKeyName initialUsersJ)

/-- getProgressForUser at the persisted layer: reads with default {}, and
when the result is not a plain object resets the key to {}, persisting it. -/
def getProgressForUserRaw (ls : LocalStorage) (userId : String) :
    JVal × LocalStorage :=
  let progress := getFromStorage ls (progressKeyName userId) (JVal.jobj [])
  if isPlainObject progress then (progress, ls)
  else (JVal.jobj [], saveToStorage ls (progressKeyName userId) (JVal.jobj []))

/-- The completions read performed inside getVideos(userId): reads with
default [], and when the result is not an array resets the key to [],
persisting it. -/
def getVideosCompletionsRead (ls : LocalStorage) (userId : String) :
    JVal × LocalStorage :=
  let completed := getFromStorage ls (completionsKeyName userId) (JVal.jarr [])
  if isArray completed then (completed, ls)
  else (JVal.jarr [], saveToStorage ls (completionsKeyName userId) (JVal.jarr []))

/-! ## Theorems -/

/-- Claim C10: updateVideoCompletion preserves duplicate-freedom of a user's
completion set: on a duplicate-free stored list, marking an already-present
video complete leaves the list unchanged; marking a video incomplete removes
every occurrence of its id and keeps all other ids; and in both directions
the resulting list is duplicate-free. -/
theorem updateVideoCompletion_preserves_nodup (cs : List String)
    (videoId : String) (hnd : cs.Nodup) :
    (cs.contains videoId = true →
      updateVideoCompletion cs videoId true = cs)
  ∧ (updateVideoCompletion cs videoId false).count videoId = 0
  ∧ (∀ x, x ≠ videoId →
      (x ∈ updateVideoCompletion cs videoId false ↔ x ∈ cs))
  ∧ (updateVideoCompletion cs videoId true).Nodup
  ∧ (updateVideoCompletion cs videoId false).Nodup := by
  refine ⟨?_, ?_, ?_, ?_, ?_⟩
  · intro h
    have hm : videoId ∈ cs := by simpa using h
    simp [updateVideoCompletion, hm]
  · have hmem : videoId ∉ updateVideoCompletion cs videoId false := by
      simp [updateVideoCompletion]
    exact List.count_eq_zero.mpr hmem
  · intro x hx
    simp [updateVideoCompletion, hx]
  · by_cases hm : videoId ∈ cs
    · simp [updateVideoCompletion, hm, hnd]
    · have happ : (cs ++ [videoId]).Nodup := by
        refine hnd.append (List.nodup_singleton _) ?_
        intro a ha hb
        have : a = videoId := by simpa using hb
        subst this
        exact hm ha
      simp [updateVideoCompletion, hm, happ]
  · exact hnd.filter _

/-- Witness for C10 at a concrete duplicate-free completion list. -/
theorem updateVideoCompletion_preserves_nodup_witness :
    updateVideoCompletion ["a", "b"] "a" true = ["a", "b"]
  ∧ (updateVideoCompletion ["a", "b"] "a" false).count "a" = 0
  ∧ (updateVideoCompletion ["a", "b"] "a" true).Nodup
  ∧ (updateVideoCompletion ["a", "b"] "a" false).Nodup :=
  ⟨(updateVideoCompletion_preserves_nodup ["a", "b"] "a" (by decide)).1
      (by decide),
   (updateVideoCompletion_preserves_nodup ["a", "b"] "a" (by decide)).2.1,
   (updateVideoCompletion_preserves_nodup ["a", "b"] "a" (by decide)).2.2.2.1,
   (updateVideoCompletion_preserves_nodup ["a", "b"] "a" (by decide)).2.2.2.2⟩

/-- Claim C7: whenever authenticateUser succeeds, and whenever
registerStudent succeeds, the returned user carries no password — the secret
is stripped before returning, although the stored record keeps it. -/
theorem auth_register_strip_password (users : List User) (email pw : String)
    (d : RegisterData) (now : Nat) :
    (∀ r : User, authenticateUser users email pw = some r →
      r.password = none)
  ∧ (∀ r : User, (registerStudent users d now).1 = some r →
      r.password = none) := by
  constructor
  · intro r h
    unfold authenticateUser at h
    cases hf : users.find? (fun u => jsToLower u.email == jsToLower email) with
    | none => rw [hf] at h; cases h
    | some u =>
        rw [hf] at h
        by_cases hp : u.password == some pw
        · simp only [hp, if_true, Option.some.injEq] at h
          rw [← h]
        · simp [hp] at h
  · intro r h
    unfold registerStudent at h
    by_cases hd : users.any (fun u => jsToLower u.email == jsToLower d.email)
    · simp [hd] at h
    · simp only [hd, Bool.false_eq_true, if_false, Option.some.injEq] at h
      rw [← h]

/-- Witness for C7: a concrete successful login and a concrete successful
registration, both returning a password-free user. -/
theorem auth_register_strip_password_witness :
    ({ id := "u1", name := "N", email := "n@x.com",
       password := none, type := UserType.student,
       «class» := some VClass.c8,
       status := UserStatus.active } : User).password = none
  ∧ ({ id := "user_7", name := "M", email := "m@x.com",
       password := none, type := UserType.student,
       «class» := some VClass.c9,
       status := UserStatus.active } : User).password = none := by
  constructor
  · exact (auth_register_strip_password
      [{ id := "u1", name := "N", email := "n@x.com",
         password := some "pw", type := UserType.student,
         «class» := some VClass.c8, status := UserStatus.active }]
      "n@x.com" "pw"
      { name := "M", email := "m@x.com", password := some "pw2",
        «class» := some VClass.c9 } 7).1 _ (by decide)
  · exact (auth_register_strip_password
      [{ id := "u1", name := "N", email := "n@x.com",
         password := some "pw", type := UserType.student,
         «class» := some VClass.c8, status := UserStatus.active }]
      "n@x.com" "pw"
      { name := "M", email := "m@x.com", password := some "pw2",
        «class» := some VClass.c9 } 7).2 _ (by decide)

/-- Claim C9: authenticateUser ignores the stored status field: a user whose
status is 'disabled' still authenticates with a case-insensitively matching
email and the right password, and the returned record is the stored one with
the password stripped. -/
theorem authenticateUser_ignores_disabled_status (users : List User)
    (u : User) (email pw : String) (hmem : u ∈ users)
    (hnd : (users.map (fun w => jsToLower w.email)).Nodup)
    (hemail : jsToLower u.email = jsToLower email)
    (hpw : u.password = some pw)
    (hstatus : u.status = UserStatus.disabled) :
    authenticateUser users email pw = some { u with password := none } := by
  have hfind : users.find? (fun w => jsToLower w.email == jsToLower email)
      = some u := by
    cases hf : users.find? (fun w => jsToLower w.email == jsToLower email) with
    | none =>
        have hnone := List.find?_eq_none.mp hf u hmem
        simp [hemail] at hnone
    | some w =>
        have hw1 : jsToLower w.email = jsToLower email := by
          have := List.find?_some hf
          simpa using this
        have hw2 : w ∈ users := List.mem_of_find?_eq_some hf
        have hweq : jsToLower w.email = jsToLower u.email := by
          rw [hw1, hemail]
        have huw : w = u :=
          List.inj_on_of_nodup_map hnd hw2 hmem hweq
        rw [huw]
  unfold authenticateUser
  rw [hfind]
  simp [hpw]

/-- Witness for C9: a concrete disabled user authenticates with a
differently-cased email. -/
theorem authenticateUser_ignores_disabled_status_witness :
    authenticateUser
      [{ id := "u1", name := "N", email := "N@X.com",
         password := some "pw", type := UserType.student,
         «class» := some VClass.c8, status := UserStatus.disabled }]
      "n@x.COM" "pw"
    = some { id := "u1", name := "N", email := "N@X.com",
             password := none, type := UserType.student,
             «class» := some VClass.c8, status := UserStatus.disabled } :=
  authenticateUser_ignores_disabled_status
    [{ id := "u1", name := "N", email := "N@X.com",
       password := some "pw", type := UserType.student,
       «class» := some VClass.c8, status := UserStatus.disabled }]
    { id := "u1", name := "N", email := "N@X.com",
      password := some "pw", type := UserType.student,
      «class» := some VClass.c8, status := UserStatus.disabled }
    "n@x.COM" "pw"
    (by decide) (by decide) (by decide) (by decide) (by decide)

/-- A sample video record for concrete counterexamples and witnesses. -/
def vidA : Video :=
  { id := "v1", title := "T", description := "D",
    subject := Subject.science, «class» := VClass.c8, duration := "10:00",
    views := 3, completed := none, status := VStatus.draft,
    thumbnailUrl := "th", videoUrls := [("720p", "u")], tags := none,
    uploadedAt := 50 }

/-- A sample upload payload for concrete counterexamples and witnesses. -/
def vidDataA : VideoData :=
  { title := "T", description := "D", subject := Subject.science,
    «class» := VClass.c8, duration := "10:00", views := 3,
    completed := none, status := VStatus.draft, thumbnailUrl := "th",
    videoUrls := [("720p", "u")], tags := none, uploadedAt := 50 }

/-- A sample user record for concrete counterexamples and witnesses. -/
def userA : User :=
  { id := "u1", name := "A", email := "a@x.com", password := some "pw",
    type := UserType.student, «class» := some VClass.c8,
    status := UserStatus.active }

/-- The fresh state before anything has run: DB handle closed, no
localStorage keys, empty videos store. -/
def fresh0 : DBState :=
  { dbOpen := false, usersKey := false, legacyVideos := none, videos := [] }

/-- An initialized-looking state holding one video. -/
def oneVid : DBState :=
  { dbOpen := true, usersKey := true, legacyVideos := none, videos := [vidA] }

/-- Counterexample to claim C4: on a fresh, never-initialized state, getVideos
does not fail with an Uninitialized error — it lazily opens the store and
returns its contents. -/
theorem getVideos_before_init_not_uninitialized :
    getVideos fresh0 ≠ Except.error DBError.uninitialized
  ∧ getVideos fresh0
      = Except.ok ([], { dbOpen := true, usersKey := false,
                         legacyVideos := none, videos := [] }) := by
  constructor
  · simp [getVideos, getRawVideos, openDB, fresh0]
  · simp [getVideos, getRawVideos, openDB, fresh0]

/-- Helper: updateUserProfile on an id no user has returns null and rebuilds
the table unchanged. -/
theorem updateUserProfile_id_not_found (userId : String) (q : UserPatch) :
    ∀ users : List User, (∀ u ∈ users, u.id ≠ userId) →
      updateUserProfile users userId q = (none, users) := by
  intro users
  induction users with
  | nil => intro _; simp [updateUserProfile]
  | cons u rest ih =>
      intro hu
      have h1 : (u.id == userId) = false := by
        simpa using hu u (List.mem_cons_self u rest)
      have h2 := ih (fun w hw => hu w (List.mem_cons_of_mem u hw))
      simp [updateUserProfile, h1, h2]

/-- Claim C4 (amended): no data-layer operation checks for initialization;
invoked on any state, initialized or not, each one lazily opens the Record
Store via openDB and proceeds, never failing with an Uninitialized error. -/
theorem ops_before_init_lazily_open (s : DBState) (h : s.dbOpen = false)
    (videoId : String) (p : VideoPatch) (d : VideoData) (now : Nat) :
    (getVideos s ≠ Except.error DBError.uninitialized
      ∧ ∃ r, getVideos s = Except.ok r)
  ∧ (updateVideo s videoId p ≠ Except.error DBError.uninitialized
      ∧ ∃ r, updateVideo s videoId p = Except.ok r)
  ∧ (deleteVideo s videoId ≠ Except.error DBError.uninitialized
      ∧ ∃ r, deleteVideo s videoId = Except.ok r)
  ∧ addVideo s d now ≠ Except.error DBError.uninitialized := by
  refine ⟨⟨?_, ?_⟩, ⟨?_, ?_⟩, ⟨?_, ?_⟩, ?_⟩
  · simp [getVideos, getRawVideos]
  · exact ⟨_, rfl⟩
  · cases hfind : (openDB s).videos.find? (fun v => v.id == videoId) <;>
      simp [updateVideo, hfind]
  · cases hfind : (openDB s).videos.find? (fun v => v.id == videoId) <;>
      simp [updateVideo, hfind]
  · simp [deleteVideo]
  · exact ⟨_, rfl⟩
  · unfold addVideo
    by_cases hc : (openDB s).videos.any
        (fun w => w.id == "video_" ++ toString now) <;> simp [hc]

/-- Witness for C4 (amended) on the fresh uninitialized state. -/
theorem ops_before_init_lazily_open_witness :
    getVideos fresh0 ≠ Except.error DBError.uninitialized
  ∧ updateVideo fresh0 "v9" {} ≠ Except.error DBError.uninitialized
  ∧ deleteVideo fresh0 "v9" ≠ Except.error DBError.uninitialized
  ∧ addVideo fresh0 vidDataA 9 ≠ Except.error DBError.uninitialized :=
  ⟨(ops_before_init_lazily_open fresh0 rfl "v9" {} vidDataA 9).1.1,
   (ops_before_init_lazily_open fresh0 rfl "v9" {} vidDataA 9).2.1.1,
   (ops_before_init_lazily_open fresh0 rfl "v9" {} vidDataA 9).2.2.1.1,
   (ops_before_init_lazily_open fresh0 rfl "v9" {} vidDataA 9).2.2.2⟩

/-- Counterexample to claim C8: updating a missing video id resolves null —
it does not throw NotFound — and updating a missing user id returns null;
both stores are left unchanged. -/
theorem update_missing_id_returns_null_cex :
    updateVideo oneVid "nope" {} = Except.ok (none, oneVid)
  ∧ updateVideo oneVid "nope" {} ≠ Except.error DBError.notFound
  ∧ updateUserProfile [userA] "nope" {} = (none, [userA]) := by
  have h1 : updateVideo oneVid "nope" {} = Except.ok (none, oneVid) := by
    simp [updateVideo, openDB, oneVid, vidA]
  refine ⟨h1, ?_, ?_⟩
  · rw [h1]; simp
  · decide

/-- Claim C8 (amended): a mutation on a non-existent id — updateVideo with a
video id not in the Record Store, updateUserProfile with a user id not in
the user table — returns the null sentinel rather than throwing, and leaves
the store unchanged. -/
theorem mutations_on_missing_id (s : DBState) (videoId : String)
    (p : VideoPatch) (users : List User) (userId : String) (q : UserPatch)
    (hvideo : ∀ v ∈ s.videos, v.id ≠ videoId)
    (huser : ∀ u ∈ users, u.id ≠ userId) :
    updateVideo s videoId p = Except.ok (none, openDB s)
  ∧ updateUserProfile users userId q = (none, users) := by
  constructor
  · have hf : (openDB s).videos.find? (fun v => v.id == videoId) = none := by
      apply List.find?_eq_none.mpr
      intro v hvmem
      simp [hvideo v hvmem]
    simp [updateVideo, hf]
  · exact updateUserProfile_id_not_found userId q users huser

/-- Witness for C8 (amended) at a concrete store and table. -/
theorem mutations_on_missing_id_witness :
    updateVideo oneVid "v9" {} = Except.ok (none, openDB oneVid)
  ∧ updateUserProfile [userA] "v9" {} = (none, [userA]) :=
  mutations_on_missing_id oneVid "v9" {} [userA] "v9" {}
    (by decide) (by decide)

/-- Reading back the entry just written under a key. -/
theorem lsSet_get_self (ls : LocalStorage) (k : String) (x : LSItem) :
    lsSet ls k x k = some x := by
  simp [lsSet]

/-- localStorage holding only an unparseable blob under user u1's progress
key. -/
def corruptProgressLS : LocalStorage :=
  fun k => if k == progressKeyName "u1" then some LSItem.corrupt else none

/-- Counterexample to claim C2: with an unparseable value persisted under a
progress key, getProgressForUser returns the default but does NOT persist
it — the store still holds the corrupted entry afterwards. -/
theorem self_healing_not_persisted_cex :
    (getProgressForUserRaw corruptProgressLS "u1").1 = JVal.jobj []
  ∧ (getProgressForUserRaw corruptProgressLS "u1").2 (progressKeyName "u1")
      = some LSItem.corrupt := by
  constructor
  · rfl
  · rfl

/-- Claim C2 (amended): the Scalar Store reads self-heal only on shape
mismatches.  A persisted value that deserializes to the wrong shape makes
getUsers return and persist initialUsers, and makes getProgressForUser and
the completions read inside getVideos return and persist their empty
defaults.  A persisted value that fails to deserialize makes each read
return the caller-supplied default ([] for users and completions, the empty
map for progress) but leaves the corrupted entry in the store. -/
theorem scalar_store_self_healing (ls : LocalStorage) (uid : String)
    (v : JVal) (harr : isArray v = false) (hobj : isPlainObject v = false) :
    (getUsersRaw (lsSet ls usersKeyName (LSItem.parsed v))
        = (initialUsersJ,
           saveToStorage (lsSet ls usersKeyName (LSItem.parsed v))
             usersKeyName initialUsersJ))
  ∧ ((getUsersRaw (lsSet ls usersKeyName (LSItem.parsed v))).2 usersKeyName
        = some (LSItem.parsed initialUsersJ))
  ∧ (getProgressForUserRaw
        (lsSet ls (progressKeyName uid) (LSItem.parsed v)) uid).1
      = JVal.jobj []
  ∧ ((getProgressForUserRaw
        (lsSet ls (progressKeyName uid) (LSItem.parsed v)) uid).2
        (progressKeyName uid)
      = some (LSItem.parsed (JVal.jobj [])))
  ∧ (getVideosCompletionsRead
        (lsSet ls (completionsKeyName uid) (LSItem.parsed v)) uid).1
      = JVal.jarr []
  ∧ ((getVideosCompletionsRead
        (lsSet ls (completionsKeyName uid) (LSItem.parsed v)) uid).2
        (completionsKeyName uid)
      = some (LSItem.parsed (JVal.jarr [])))
  ∧ (getUsersRaw (lsSet ls usersKeyName LSItem.corrupt)
        = (JVal.jarr [], lsSet ls usersKeyName LSItem.corrupt))
  ∧ (getProgressForUserRaw
        (lsSet ls (progressKeyName uid) LSItem.corrupt) uid
        = (JVal.jobj [], lsSet ls (progressKeyName uid) LSItem.corrupt))
  ∧ (getVideosCompletionsRead
        (lsSet ls (completionsKeyName uid) LSItem.corrupt) uid
        = (JVal.jarr [], lsSet ls (completionsKeyName uid) LSItem.corrupt)) := by
  refine ⟨?_, ?_, ?_, ?_, ?_, ?_, ?_, ?_, ?_⟩
  · simp [getUsersRaw, getFromStorage, lsSet_get_self, harr]
  · simp [getUsersRaw, getFromStorage, lsSet_get_self, harr,
      saveToStorage, lsSet_get_self]
  · simp [getProgressForUserRaw, getFromStorage, lsSet_get_self, hobj]
  · simp [getProgressForUserRaw, getFromStorage, lsSet_get_self, hobj,
      saveToStorage]
  · simp [getVideosCompletionsRead, getFromStorage, lsSet_get_self, harr]
  · simp [getVideosCompletionsRead, getFromStorage, lsSet_get_self, harr,
      saveToStorage]
  · simp [getUsersRaw, getFromStorage, lsSet_get_self, isArray]
  · simp [getProgressForUserRaw, getFromStorage, lsSet_get_self,
      isPlainObject]
  · simp [getVideosCompletionsRead, getFromStorage, lsSet_get_self, isArray]

/-- Witness for C2 (amended): a number persisted under the users key (wrong
shape) is reset to initialUsers and the reset is persisted. -/
theorem scalar_store_self_healing_witness :
    getUsersRaw (lsSet (fun _ => none) usersKeyName
        (LSItem.parsed (JVal.jnum 0)))
      = (initialUsersJ,
         saveToStorage (lsSet (fun _ => none) usersKeyName
             (LSItem.parsed (JVal.jnum 0)))
           usersKeyName initialUsersJ) :=
  (scalar_store_self_healing (fun _ => none) "u1" (JVal.jnum 0) rfl rfl).1

/-- A second sample user with an email distinct from userA's. -/
def userB : User :=
  { id := "u2", name := "B", email := "b@x.com", password := some "pw2",
    type := UserType.student, «class» := some VClass.c8,
    status := UserStatus.active }

/-- A sample registration payload with a fresh email. -/
def regC : RegisterData :=
  { name := "C", email := "c@y.com", password := some "pw3",
    «class» := some VClass.c9 }

/-- Counterexample to claim C5: updateUserProfile performs no uniqueness
check, so patching one user's email to another user's email leaves the table
with a case-insensitive duplicate. -/
theorem updateUserProfile_breaks_email_uniqueness_cex :
    (([userA, userB]).map (fun u => jsToLower u.email)).Nodup
  ∧ ¬ (((updateUserProfile [userA, userB] "u1"
          { email := some "b@x.com" }).2.map
            (fun u => jsToLower u.email)).Nodup) := by
  constructor
  · decide
  · decide

/-- changePassword never changes any email. -/
theorem changePassword_emails (userId oldPass newPass : String) :
    ∀ users : List User,
      (changePassword users userId oldPass newPass).2.map
          (fun u => jsToLower u.email)
        = users.map (fun u => jsToLower u.email) := by
  intro users
  induction users with
  | nil => simp [changePassword]
  | cons u rest ih =>
      by_cases hid : (u.id == userId) = true
      · by_cases hpw : (u.password == some oldPass) = true
        · simp [changePassword, hid, hpw]
        · simp [changePassword, hid, hpw]
      · simp [changePassword, hid, ih]

/-- With no email in the patch, updateUserProfile changes no email. -/
theorem updateUserProfile_emails_of_none (userId : String) (p : UserPatch)
    (hpe : p.email = none) :
    ∀ users : List User,
      (updateUserProfile users userId p).2.map (fun u => jsToLower u.email)
        = users.map (fun u => jsToLower u.email) := by
  intro users
  induction users with
  | nil => simp [updateUserProfile]
  | cons u rest ih =>
      by_cases hid : (u.id == userId) = true
      · simp [updateUserProfile, hid, applyUserPatch, hpe]
      · simp [updateUserProfile, hid, ih]

/-- Every email in an updateUserProfile result is an old email or the
patch's email. -/
theorem updateUserProfile_emails_subset (userId : String) (p : UserPatch) :
    ∀ (users : List User) (x : String),
      x ∈ (updateUserProfile users userId p).2.map
            (fun u => jsToLower u.email) →
      x ∈ users.map (fun u => jsToLower u.email)
        ∨ ∃ e, p.email = some e ∧ x = jsToLower e := by
  intro users
  induction users with
  | nil => intro x hx; simp [updateUserProfile] at hx
  | cons u rest ih =>
      intro x hx
      by_cases hid : (u.id == userId) = true
      · simp only [updateUserProfile, hid, if_true, List.map_cons,
          List.mem_cons] at hx
        rcases hx with hx | hx
        · cases hpe : p.email with
          | some e =>
              right
              refine ⟨e, rfl, ?_⟩
              rw [hx]
              simp [applyUserPatch, hpe]
          | none =>
              left
              rw [hx]
              simp [applyUserPatch, hpe]
        · left
          rw [List.map_cons]
          exact List.mem_cons_of_mem _ hx
      · simp only [updateUserProfile, hid, Bool.false_eq_true, if_false,
          List.map_cons, List.mem_cons] at hx
        rcases hx with hx | hx
        · left; simp [hx]
        · rcases ih x hx with h | h
          · left
            rw [List.map_cons]
            exact List.mem_cons_of_mem _ h
          · right
            exact h

/-- updateUserProfile keeps case-insensitive email distinctness when the
patched email (if any) is not already in use. -/
theorem updateUserProfile_emails_nodup (userId : String) (p : UserPatch) :
    ∀ users : List User,
      (users.map (fun u => jsToLower u.email)).Nodup →
      (∀ e, p.email = some e →
        ∀ w ∈ users, jsToLower w.email ≠ jsToLower e) →
      ((updateUserProfile users userId p).2.map
          (fun u => jsToLower u.email)).Nodup := by
  intro users
  induction users with
  | nil => intro _ _; simp [updateUserProfile]
  | cons u rest ih =>
      intro hnd hp
      rw [List.map_cons, List.nodup_cons] at hnd
      by_cases hid : (u.id == userId) = true
      · simp only [updateUserProfile, hid, if_true, List.map_cons,
          List.nodup_cons]
        refine ⟨?_, hnd.2⟩
        cases hpe : p.email with
        | some e =>
            have hmail : jsToLower (applyUserPatch u p).email
                = jsToLower e := by
              simp [applyUserPatch, hpe]
            rw [hmail]
            intro hmem
            rw [List.mem_map] at hmem
            rcases hmem with ⟨w, hw, hweq⟩
            exact hp e hpe w (List.mem_cons_of_mem u hw) hweq
        | none =>
            have hmail : jsToLower (applyUserPatch u p).email
                = jsToLower u.email := by
              simp [applyUserPatch, hpe]
            rw [hmail]
            exact hnd.1
      · simp only [updateUserProfile, hid, Bool.false_eq_true, if_false,
          List.map_cons, List.nodup_cons]
        constructor
        · intro hmem
          rcases updateUserProfile_emails_subset userId p rest _ hmem with
            h | ⟨e, hpe, hxe⟩
          · exact hnd.1 h
          · exact hp e hpe u (List.mem_cons_self u rest) hxe
        · exact ih hnd.2 (fun e he w hw => hp e he w (List.mem_cons_of_mem u hw))

/-- Claim C5 (amended): starting from a table whose emails are pairwise
distinct case-insensitively, registerStudent, changePassword and deleteUser
always preserve the distinctness, and registering an email already present
in any letter case fails leaving the table exactly unchanged; but
updateUserProfile performs no uniqueness check, so it preserves distinctness
only provided the patch does not set the email (p.email = none) or sets it
to one not already in use case-insensitively. -/
theorem user_email_uniqueness (users : List User) (d : RegisterData)
    (now : Nat) (userId oldPass newPass : String) (p : UserPatch)
    (hnd : (users.map (fun u => jsToLower u.email)).Nodup)
    (hp : ∀ e, p.email = some e →
      ∀ w ∈ users, jsToLower w.email ≠ jsToLower e) :
    ((registerStudent users d now).2.map (fun u => jsToLower u.email)).Nodup
  ∧ (users.any (fun u => jsToLower u.email == jsToLower d.email) = true →
      registerStudent users d now = (none, users))
  ∧ ((changePassword users userId oldPass newPass).2.map
        (fun u => jsToLower u.email)).Nodup
  ∧ ((deleteUser users userId).map (fun u => jsToLower u.email)).Nodup
  ∧ ((updateUserProfile users userId p).2.map
        (fun u => jsToLower u.email)).Nodup := by
  refine ⟨?_, ?_, ?_, ?_, ?_⟩
  · by_cases hc : users.any (fun u => jsToLower u.email == jsToLower d.email)
    · simpa [registerStudent, hc] using hnd
    · have hc' : users.any (fun u => jsToLower u.email == jsToLower d.email)
          = false := by
        simpa using hc
      have hno : ∀ u ∈ users, jsToLower u.email ≠ jsToLower d.email := by
        intro u hu
        have := List.any_eq_false.mp hc' u hu
        simpa using this
      have : ¬ (jsToLower d.email ∈
          users.map (fun u => jsToLower u.email)) := by
        intro hmem
        rw [List.mem_map] at hmem
        rcases hmem with ⟨w, hw, hweq⟩
        exact hno w hw hweq
      simp [registerStudent, hc, List.nodup_append, hnd, this]
  · intro h
    simp [registerStudent, h]
  · rw [changePassword_emails]
    exact hnd
  · exact List.Nodup.sublist
      (List.Sublist.map _ (List.filter_sublist users)) hnd
  · exact updateUserProfile_emails_nodup userId p users hnd hp

/-- Witness for C5 (amended): registering a fresh email on a concrete
two-user table keeps the emails pairwise distinct. -/
theorem user_email_uniqueness_witness :
    ((registerStudent [userA, userB] regC 5).2.map
        (fun u => jsToLower u.email)).Nodup :=
  (user_email_uniqueness [userA, userB] regC 5 "u1" "pw" "np" {}
    (by decide) (by simp)).1

/-- A second sample video with an id and timestamp distinct from vidA's. -/
def vidB : Video :=
  { id := "v2", title := "T2", description := "D2",
    subject := Subject.history, «class» := VClass.c9, duration := "05:00",
    views := 7, completed := none, status := VStatus.published,
    thumbnailUrl := "th2", videoUrls := [("480p", "u2")], tags := none,
    uploadedAt := 80 }

/-- Putting a record whose id belongs to a store member replaces exactly
that member. -/
theorem putVideo_map_of_mem (store : List Video) (f : Video → Video)
    (hf : ∀ u, (f u).id = u.id) (v : Video) (hv : v ∈ store) (w : Video)
    (hw : w.id = v.id) :
    putVideo (store.map f) w
      = store.map (fun u => if u.id = v.id then w else f u) := by
  have hany : (store.map f).any (fun x => x.id == w.id) = true := by
    rw [List.any_eq_true]
    exact ⟨f v, List.mem_map_of_mem f hv, by simp [hf, hw]⟩
  unfold putVideo
  rw [hany]
  simp only [if_true, List.map_map]
  apply List.map_congr_left
  intro u hu
  simp only [Function.comp_apply, hf, hw]
  by_cases h : u.id = v.id
  · simp [h]
  · simp [h]

/-- Committing the puts queued against a snapshot applies the per-record
transform to every id in the batch that the snapshot holds, and to nothing
else. -/
theorem commitOps_putOpsFor (g : Video → Video)
    (hg : ∀ u, (g u).id = u.id) (store : List Video)
    (hnd : (store.map (fun v => v.id)).Nodup) :
    ∀ (ids : List String) (f : Video → Video), (∀ u, (f u).id = u.id) →
      commitOps (store.map f) (putOpsFor store ids g)
        = store.map (fun v => if v.id ∈ ids then g v else f v) := by
  intro ids
  induction ids with
  | nil => intro f hf; simp [putOpsFor, commitOps]
  | cons i rest ih =>
      intro f hf
      cases hfind : store.find? (fun v => v.id == i) with
      | none =>
          have hnone : ∀ v ∈ store, v.id ≠ i := by
            intro v hv
            have := List.find?_eq_none.mp hfind v hv
            simpa using this
          rw [show putOpsFor store (i :: rest) g = putOpsFor store rest g
            from by simp [putOpsFor, List.filterMap_cons, hfind]]
          rw [ih f hf]
          apply List.map_congr_left
          intro v hv
          simp [List.mem_cons, hnone v hv]
      | some v =>
          have hvmem : v ∈ store := List.mem_of_find?_eq_some hfind
          have hvid : v.id = i := by
            simpa using List.find?_some hfind
          rw [show putOpsFor store (i :: rest) g
                = TxnOp.putOp (g v) :: putOpsFor store rest g
            from by simp [putOpsFor, List.filterMap_cons, hfind]]
          rw [show commitOps (store.map f)
                (TxnOp.putOp (g v) :: putOpsFor store rest g)
              = commitOps (putVideo (store.map f) (g v))
                  (putOpsFor store rest g) from rfl]
          rw [putVideo_map_of_mem store f hf v hvmem (g v) (hg v)]
          rw [show store.map (fun u => if u.id = v.id then g v else f u)
                = store.map (fun u => if u.id = v.id then g u else f u)
            from by
              apply List.map_congr_left
              intro u hu
              by_cases h : u.id = v.id
              · have huv : u = v := List.inj_on_of_nodup_map hnd hu hvmem h
                simp [h, huv]
              · simp [h]]
          rw [ih (fun u => if u.id = v.id then g u else f u)
            (by
              intro u
              by_cases h : u.id = v.id
              · simp [h, hg]
              · simp [h, hf])]
          apply List.map_congr_left
          intro u hu
          by_cases h1 : u.id ∈ rest
          · simp [h1, List.mem_cons]
          · by_cases h2 : u.id = v.id
            · simp [h1, h2, hvid, List.mem_cons]
            · have h3 : u.id ≠ i := by rw [← hvid]; exact h2
              simp [h1, h2, h3, List.mem_cons]

/-- Committing the deletes queued for a list of ids filters out exactly the
records whose ids are in the list. -/
theorem commitOps_deleteOps (ids : List String) :
    ∀ store : List Video,
      commitOps store (ids.map TxnOp.deleteOp)
        = store.filter (fun v => decide (v.id ∉ ids)) := by
  induction ids with
  | nil =>
      intro store
      simp [commitOps]
  | cons i rest ih =>
      intro store
      rw [show commitOps store ((i :: rest).map TxnOp.deleteOp)
            = commitOps (store.filter (fun v => v.id != i))
                (rest.map TxnOp.deleteOp) from rfl]
      rw [ih]
      rw [List.filter_filter]
      apply List.filter_congr
      intro v hv
      by_cases h : v.id = i
      · simp [h]
      · simp [h]

/-- Claim C1: each batch mutation (updateMultipleVideosStatus,
addTagsToMultipleVideos, deleteMultipleVideos) is all-or-nothing: when its
single transaction commits, every id present in the store is mutated
together while missing ids are skipped without failing the batch; when the
transaction fails, the store keeps its exact pre-batch contents. -/
theorem batch_operations_atomic (store : List Video) (ids : List String)
    (status : VStatus) (tagsToAdd : List String) (ok : Bool)
    (hnd : (store.map (fun v => v.id)).Nodup) :
    updateMultipleVideosStatus store ids status ok
      = (if ok then
          store.map (fun v =>
            if v.id ∈ ids then { v with status := status } else v)
        else store)
  ∧ addTagsToMultipleVideos store ids tagsToAdd ok
      = (if ok then
          store.map (fun v =>
            if v.id ∈ ids then
              { v with tags := some (mergeTags v.tags tagsToAdd) }
            else v)
        else store)
  ∧ deleteMultipleVideos store ids ok
      = (if ok then store.filter (fun v => decide (v.id ∉ ids))
        else store) := by
  cases ok with
  | false =>
      refine ⟨?_, ?_, ?_⟩ <;>
        simp [updateMultipleVideosStatus, addTagsToMultipleVideos,
          deleteMultipleVideos, runTxn]
  | true =>
      refine ⟨?_, ?_, ?_⟩
      · have h := commitOps_putOpsFor
          (fun v => { v with status := status }) (fun u => rfl)
          store hnd ids id (fun u => rfl)
        rw [List.map_id] at h
        simpa [updateMultipleVideosStatus, runTxn] using h
      · have h := commitOps_putOpsFor
          (fun v => { v with tags := some (mergeTags v.tags tagsToAdd) })
          (fun u => rfl) store hnd ids id (fun u => rfl)
        rw [List.map_id] at h
        simpa [addTagsToMultipleVideos, runTxn] using h
      · have h := commitOps_deleteOps ids store
        simpa [deleteMultipleVideos, runTxn] using h

/-- Witness for C1 on a concrete two-record store, a batch naming one
present and one missing id, for both the committed and the failed
transaction. -/
theorem batch_operations_atomic_witness :
    (updateMultipleVideosStatus [vidA, vidB] ["v1", "nope"]
        VStatus.published true
      = (if true then
          [vidA, vidB].map (fun v =>
            if v.id ∈ ["v1", "nope"] then { v with status := VStatus.published }
            else v)
        else [vidA, vidB]))
  ∧ (deleteMultipleVideos [vidA, vidB] ["v1", "nope"] false
      = (if false then
          [vidA, vidB].filter (fun v => decide (v.id ∉ ["v1", "nope"]))
        else [vidA, vidB])) :=
  ⟨(batch_operations_atomic [vidA, vidB] ["v1", "nope"]
      VStatus.published ["t"] true (by decide)).1,
   (batch_operations_atomic [vidA, vidB] ["v1", "nope"]
      VStatus.published ["t"] false (by decide)).2.2⟩

/-- The getVideos comparator is transitive. -/
theorem videoLe_trans : ∀ a b c : Video,
    videoLe a b → videoLe b c → videoLe a c := by
  intro a b c hab hbc
  simp only [videoLe, decide_eq_true_eq] at *
  omega

/-- The getVideos comparator is total. -/
theorem videoLe_total : ∀ a b : Video, videoLe a b || videoLe b a := by
  intro a b
  simp only [videoLe, Bool.or_eq_true, decide_eq_true_eq]
  omega

/-- Claim C6: getVideos returns exactly the stored records (a permutation of
the store's iteration order), sorted by upload timestamp descending, and the
sort is stable: the records carrying any fixed timestamp appear in the
store's iteration order.  (When a userId is supplied, the source maps a
derived completed flag over this same sorted list, which does not reorder
it.) -/
theorem getVideos_sorted_desc (s : DBState) :
    ∃ out : List Video,
      getVideos s = Except.ok (out, openDB s)
    ∧ out.Perm s.videos
    ∧ out.Pairwise (fun a b => b.uploadedAt ≤ a.uploadedAt)
    ∧ ∀ t : Nat, out.filter (fun v => v.uploadedAt == t)
        = s.videos.filter (fun v => v.uploadedAt == t) := by
  refine ⟨s.videos.mergeSort videoLe, rfl, ?_, ?_, ?_⟩
  · exact List.mergeSort_perm s.videos videoLe
  · have hs : (s.videos.mergeSort videoLe).Pairwise
        (fun a b => videoLe a b = true) :=
      List.sorted_mergeSort videoLe_trans videoLe_total s.videos
    exact hs.imp (fun h => by simpa [videoLe] using h)
  · intro t
    have hpair : (s.videos.filter
        (fun v => v.uploadedAt == t)).Pairwise
          (fun a b => videoLe a b = true) := by
      apply List.pairwise_of_forall_mem_list
      intro a ha b hb
      have ha' : a.uploadedAt = t := by
        simpa using (List.mem_filter.mp ha).2
      have hb' : b.uploadedAt = t := by
        simpa using (List.mem_filter.mp hb).2
      simp [videoLe, ha', hb']
    have hsub : List.Sublist
        (s.videos.filter (fun v => v.uploadedAt == t)) s.videos :=
      List.filter_sublist s.videos
    have hstab := List.sublist_mergeSort videoLe_trans videoLe_total
      hpair hsub
    have hidem : (s.videos.filter (fun v => v.uploadedAt == t)).filter
        (fun v => v.uploadedAt == t)
        = s.videos.filter (fun v => v.uploadedAt == t) := by
      apply List.filter_eq_self.mpr
      intro a ha
      exact (List.mem_filter.mp ha).2
    have hsub2 : List.Sublist
        (s.videos.filter (fun v => v.uploadedAt == t))
        ((s.videos.mergeSort videoLe).filter
            (fun v => v.uploadedAt == t)) := by
      have := hstab.filter (fun v => v.uploadedAt == t)
      rwa [hidem] at this
    have hlen : ((s.videos.mergeSort videoLe).filter
          (fun v => v.uploadedAt == t)).length
        = (s.videos.filter (fun v => v.uploadedAt == t)).length :=
      ((List.mergeSort_perm s.videos videoLe).filter _).length_eq
    exact (hsub2.eq_of_length hlen.symm).symm

/-- putVideo never empties a store, and never turns a nonempty store
empty. -/
theorem putVideo_ne_nil (store : List Video) (v : Video) :
    putVideo store v ≠ [] := by
  unfold putVideo
  by_cases h : store.any (fun w => w.id == v.id) = true
  · have hne : store ≠ [] := by
      intro hnil
      rw [hnil] at h
      simp at h
    simp [h, hne]
  · simp [h]

/-- Folding puts over a nonempty store keeps it nonempty. -/
theorem foldl_putVideo_ne_nil (vs : List Video) :
    ∀ store : List Video, store ≠ [] → vs.foldl putVideo store ≠ [] := by
  induction vs with
  | nil => intro store h; simpa using h
  | cons v rest ih =>
      intro store h
      rw [List.foldl_cons]
      exact ih (putVideo store v) (putVideo_ne_nil store v)

/-- putVideo preserves duplicate-freedom of the stored ids. -/
theorem putVideo_ids_nodup (store : List Video) (v : Video)
    (hnd : (store.map (fun w => w.id)).Nodup) :
    ((putVideo store v).map (fun w => w.id)).Nodup := by
  unfold putVideo
  by_cases h : store.any (fun w => w.id == v.id) = true
  · simp only [h, if_true, List.map_map]
    have hfun : ((fun w : Video => w.id) ∘
        fun w => if w.id == v.id then v else w)
        = fun w : Video => w.id := by
      funext w
      by_cases hw : w.id = v.id
      · simp [hw]
      · simp [hw]
    rw [hfun]
    exact hnd
  · have hno : v.id ∉ store.map (fun w => w.id) := by
      intro hmem
      rw [List.mem_map] at hmem
      rcases hmem with ⟨w, hw, hweq⟩
      rw [List.any_eq_true] at h
      exact h ⟨w, hw, by simp [hweq]⟩
    simp [h, List.nodup_append, hnd, hno]

/-- Folding puts preserves duplicate-freedom of the stored ids. -/
theorem foldl_putVideo_ids_nodup (vs : List Video) :
    ∀ store : List Video, (store.map (fun w => w.id)).Nodup →
      ((vs.foldl putVideo store).map (fun w => w.id)).Nodup := by
  induction vs with
  | nil => intro store h; simpa using h
  | cons v rest ih =>
      intro store h
      rw [List.foldl_cons]
      exact ih (putVideo store v) (putVideo_ids_nodup store v h)

/-- After a migration run the legacy key holds no parseable value: it is
either gone or still the unparseable blob that made JSON.parse throw. -/
theorem migrate_legacy_cleared (s : DBState) :
    (migrateLocalStorageToIndexedDB s).legacyVideos = none
  ∨ (migrateLocalStorageToIndexedDB s).legacyVideos
      = some LegacyVal.corrupt := by
  obtain ⟨d, u, l, v⟩ := s
  unfold migrateLocalStorageToIndexedDB
  cases l with
  | none => left; rfl
  | some lv =>
      cases lv with
      | corrupt => right; rfl
      | nonList => left; rfl
      | list vs =>
          by_cases h : vs.length > 0
          · left; simp [h, openDB]
          · left; simp [h]

/-- Migration never touches the open flag except to open, never touches the
users key, and never empties a nonempty store. -/
theorem migrate_preserves (s : DBState) :
    ((migrateLocalStorageToIndexedDB s).usersKey = s.usersKey)
  ∧ (s.dbOpen = true → (migrateLocalStorageToIndexedDB s).dbOpen = true)
  ∧ (s.videos ≠ [] → (migrateLocalStorageToIndexedDB s).videos ≠ [])
  ∧ ((s.videos.map (fun w => w.id)).Nodup →
      ((migrateLocalStorageToIndexedDB s).videos.map
        (fun w => w.id)).Nodup) := by
  obtain ⟨d, u, l, v⟩ := s
  unfold migrateLocalStorageToIndexedDB
  cases l with
  | none => exact ⟨rfl, fun h => h, fun h => h, fun h => h⟩
  | some lv =>
      cases lv with
      | corrupt => exact ⟨rfl, fun h => h, fun h => h, fun h => h⟩
      | nonList => exact ⟨rfl, fun h => h, fun h => h, fun h => h⟩
      | list vs =>
          by_cases h : vs.length > 0
          · refine ⟨by simp [h, openDB], by simp [h, openDB], ?_, ?_⟩
            · intro hne
              simp only [h, if_true]
              exact foldl_putVideo_ne_nil vs _ (by simpa [openDB] using hne)
            · intro hnd
              simp only [h, if_true]
              exact foldl_putVideo_ids_nodup vs _
                (by simpa [openDB] using hnd)
          · exact ⟨by simp [h], by simp [h], by simp [h], by simp [h]⟩

/-- The usersKey seeding step makes initDB insensitive to the initial open
flag and users-key presence. -/
theorem initDB_eq (d u : Bool) (l : Option LegacyVal) (v : List Video) :
    initDB ⟨d, u, l, v⟩ = initDB ⟨true, true, l, v⟩ := by
  cases u <;> rfl

/-- initDB unfolded at a state whose handle is open and users key seeded. -/
theorem initDB_ready_spec (l : Option LegacyVal) (v : List Video) :
    initDB ⟨true, true, l, v⟩ =
      (if v.length = 0 then
        (if (migrateLocalStorageToIndexedDB
              ⟨true, true, l, v⟩).videos.length = 0 then
          { migrateLocalStorageToIndexedDB ⟨true, true, l, v⟩ with
            videos := seedInitialVideos
              (migrateLocalStorageToIndexedDB ⟨true, true, l, v⟩).videos }
        else migrateLocalStorageToIndexedDB ⟨true, true, l, v⟩)
      else migrateLocalStorageToIndexedDB ⟨true, true, l, v⟩) := rfl

/-- After a first initDB run the handle is open, the users key is seeded,
the store is nonempty, and the legacy key holds no parseable value. -/
theorem initDB_post (s : DBState) :
    (initDB s).dbOpen = true ∧ (initDB s).usersKey = true
  ∧ (initDB s).videos ≠ []
  ∧ ((initDB s).legacyVideos = none
      ∨ (initDB s).legacyVideos = some LegacyVal.corrupt) := by
  obtain ⟨d, u, l, v⟩ := s
  rw [initDB_eq, initDB_ready_spec]
  by_cases hz : v.length = 0
  · rw [if_pos hz]
    by_cases hz3 : (migrateLocalStorageToIndexedDB
        ⟨true, true, l, v⟩).videos.length = 0
    · rw [if_pos hz3]
      have hv3 : (migrateLocalStorageToIndexedDB
          ⟨true, true, l, v⟩).videos = [] := List.length_eq_zero.mp hz3
      refine ⟨?_, ?_, ?_, ?_⟩
      · simpa using (migrate_preserves ⟨true, true, l, v⟩).2.1 rfl
      · simpa using (migrate_preserves ⟨true, true, l, v⟩).1
      · show seedInitialVideos (migrateLocalStorageToIndexedDB
            ⟨true, true, l, v⟩).videos ≠ []
        rw [hv3]
        decide
      · simpa using migrate_legacy_cleared ⟨true, true, l, v⟩
    · rw [if_neg hz3]
      refine ⟨?_, ?_, ?_, ?_⟩
      · exact (migrate_preserves ⟨true, true, l, v⟩).2.1 rfl
      · exact (migrate_preserves ⟨true, true, l, v⟩).1
      · intro hnil
        rw [hnil] at hz3
        simp at hz3
      · exact migrate_legacy_cleared ⟨true, true, l, v⟩
  · rw [if_neg hz]
    have hv : v ≠ [] := by
      intro hnil
      rw [hnil] at hz
      simp at hz
    refine ⟨?_, ?_, ?_, ?_⟩
    · exact (migrate_preserves ⟨true, true, l, v⟩).2.1 rfl
    · exact (migrate_preserves ⟨true, true, l, v⟩).1
    · exact (migrate_preserves ⟨true, true, l, v⟩).2.2.1 hv
    · exact migrate_legacy_cleared ⟨true, true, l, v⟩

/-- initDB is the identity on a state that is already fully initialized:
open handle, seeded users key, nonempty store and no parseable legacy
value. -/
theorem initDB_noop (t : DBState) (hopen : t.dbOpen = true)
    (husers : t.usersKey = true) (hvid : t.videos ≠ [])
    (hleg : t.legacyVideos = none
      ∨ t.legacyVideos = some LegacyVal.corrupt) :
    initDB t = t := by
  obtain ⟨d, u, l, v⟩ := t
  obtain rfl : d = true := hopen
  obtain rfl : u = true := husers
  rw [initDB_ready_spec]
  have hlen : ¬ v.length = 0 := by
    intro h
    exact hvid (List.length_eq_zero.mp h)
  rw [if_neg hlen]
  rcases hleg with h | h
  · obtain rfl : l = none := h
    rfl
  · obtain rfl : l = some LegacyVal.corrupt := h
    rfl

/-- A first initDB run leaves the stored video ids duplicate-free. -/
theorem initDB_ids_nodup (s : DBState)
    (hnd : (s.videos.map (fun w => w.id)).Nodup) :
    ((initDB s).videos.map (fun w => w.id)).Nodup := by
  obtain ⟨d, u, l, v⟩ := s
  rw [initDB_eq, initDB_ready_spec]
  by_cases hz : v.length = 0
  · rw [if_pos hz]
    by_cases hz3 : (migrateLocalStorageToIndexedDB
        ⟨true, true, l, v⟩).videos.length = 0
    · rw [if_pos hz3]
      have hv3 : (migrateLocalStorageToIndexedDB
          ⟨true, true, l, v⟩).videos = [] := List.length_eq_zero.mp hz3
      show ((seedInitialVideos (migrateLocalStorageToIndexedDB
          ⟨true, true, l, v⟩).videos).map (fun w => w.id)).Nodup
      rw [hv3]
      decide
    · rw [if_neg hz3]
      exact (migrate_preserves ⟨true, true, l, v⟩).2.2.2 hnd
  · rw [if_neg hz]
    exact (migrate_preserves ⟨true, true, l, v⟩).2.2.2 hnd

/-- Claim C3: startup initialization is idempotent — a second initDB run
returns the state of the first unchanged (so records are never duplicated
and a legacy key the first run removed stays absent), a single run keeps
the stored ids duplicate-free, and after a migration run the legacy key
never holds a parseable video list (it is either removed or still the
unparseable blob whose JSON.parse failure migration swallows). -/
theorem initDB_idempotent_migration (s : DBState)
    (hnd : (s.videos.map (fun w => w.id)).Nodup) :
    initDB (initDB s) = initDB s
  ∧ ((initDB s).videos.map (fun w => w.id)).Nodup
  ∧ ((migrateLocalStorageToIndexedDB s).legacyVideos = none
      ∨ (migrateLocalStorageToIndexedDB s).legacyVideos
          = some LegacyVal.corrupt) := by
  refine ⟨?_, initDB_ids_nodup s hnd, migrate_legacy_cleared s⟩
  obtain ⟨h1, h2, h3, h4⟩ := initDB_post s
  exact initDB_noop _ h1 h2 h3 h4

/-- A fresh state carrying one legacy video and one stored video. -/
def legacyState : DBState :=
  { dbOpen := false, usersKey := false,
    legacyVideos := some (LegacyVal.list [vidB]), videos := [vidA] }

/-- Witness for C3: a fresh state carrying a legacy video list migrates once
and the second run is a no-op. -/
theorem initDB_idempotent_migration_witness :
    (initDB (initDB legacyState) = initDB legacyState)
  ∧ ((initDB legacyState).videos.map (fun w => w.id)).Nodup
  ∧ ((migrateLocalStorageToIndexedDB legacyState).legacyVideos = none
      ∨ (migrateLocalStorageToIndexedDB legacyState).legacyVideos
          = some LegacyVal.corrupt) :=
  initDB_idempotent_migration legacyState (by decide)

end SVB
